import Mathlib

/-!
Verification of the jira-releaseinfo-export repository core logic.

The repository consists of near-duplicate Python scripts.  The claims refer
to the sprint parsing, custom-field normalization, issue-record building,
release-window filtering, and keyword matching found in `main.py`,
`main_v3.py` and `main_v6_keyword_match.py`.  We embed the relevant Python
functions shallowly: JSON payloads become the inductive type `JVal`,
Python dictionaries become association lists, fallible attribute access is
modelled in the `Except` monad, and CPython `str.find` / `strptime`
behaviour is reproduced by executable Lean functions.
-/

/-- A JSON-like Python value as delivered by the Jira REST API. -/
inductive JVal : Type where
  | jnull : JVal
  | jbool : Bool → JVal
  | jnum : Int → JVal
  | jstr : String → JVal
  | jarr : List JVal → JVal
  | jobj : List (String × JVal) → JVal

open JVal

/-- Python exception kinds that the embedded code can raise. -/
inductive PyErr : Type where
  | attributeError : PyErr
  | typeError : PyErr
  | keyError : PyErr
  | valueError : PyErr
  | indexError : PyErr
deriving DecidableEq

/-- Python truthiness (`bool(x)`) over the embedded value union. -/
def pyTruthy : JVal → Bool
  | jnull => false
  | jbool b => b
  | jnum n => n != 0
  | jstr s => !s.data.isEmpty
  | jarr xs => !xs.isEmpty
  | jobj xs => !xs.isEmpty

/-- `d.get(k, dflt)` on a value known to be a dict (association list).
Present keys win even when the stored value is `None`. -/
def dictGetD (d : List (String × JVal)) (k : String) (dflt : JVal) : JVal :=
  (List.lookup k d).getD dflt

/-- `v.get(k, dflt)` as a method call: raises `AttributeError` when the
receiver is not a dict (for example `None.get(...)`). -/
def pyGetMethod (v : JVal) (k : String) (dflt : JVal) : Except PyErr JVal :=
  match v with
  | jobj d => Except.ok (dictGetD d k dflt)
  | _ => Except.error PyErr.attributeError

/-- `v[k]` subscripting: `KeyError` when the key is absent from a dict,
`TypeError` when the receiver is not a dict. -/
def pySubscript (v : JVal) (k : String) : Except PyErr JVal :=
  match v with
  | jobj d =>
    match List.lookup k d with
    | some x => Except.ok x
    | none => Except.error PyErr.keyError
  | _ => Except.error PyErr.typeError

/-- `v[0]` on a list: `IndexError` when empty, `TypeError` otherwise. -/
def pyIndex0 (v : JVal) : Except PyErr JVal :=
  match v with
  | jarr (x :: _) => Except.ok x
  | jarr [] => Except.error PyErr.indexError
  | _ => Except.error PyErr.typeError

mutual

/-- Python `repr` over the embedded union (no escaping inside strings,
which is adequate for the payloads considered here). -/
def pyRepr : JVal → String
  | jnull => "None"
  | jbool b => if b then "True" else "False"
  | jnum n => toString n
  | jstr s => "\x27" ++ s ++ "\x27"
  | jarr xs => "[" ++ pyReprList xs ++ "]"
  | jobj xs => "\x7b" ++ pyReprPairs xs ++ "\x7d"

/-- Comma-separated body of a Python list `repr`. -/
def pyReprList : List JVal → String
  | [] => ""
  | [x] => pyRepr x
  | x :: y :: t => pyRepr x ++ ", " ++ pyReprList (y :: t)

/-- Comma-separated body of a Python dict `repr`. -/
def pyReprPairs : List (String × JVal) → String
  | [] => ""
  | [(k, v)] => "\x27" ++ k ++ "\x27: " ++ pyRepr v
  | (k, v) :: y :: t => "\x27" ++ k ++ "\x27: " ++ pyRepr v ++ ", " ++ pyReprPairs (y :: t)

end

/-- Python `str` over the embedded union. -/
def pyStr : JVal → String
  | jstr s => s
  | v => pyRepr v

/-- Python equality test of a value against a string literal; values of a
different runtime type are unequal to any string. -/
def jvalIsStr (v : JVal) (s : String) : Bool :=
  match v with
  | jstr t => t == s
  | _ => false

/-- Length of the payload when the value is a string; `0` otherwise.  Used
to discriminate unequal `JVal.jstr` results in refutations. -/
def jstrLen : JVal → Nat
  | jstr s => s.length
  | _ => 0

/-! ### CPython `str.find` and substring containment -/

/-- Index (relative to `i`) of the first position of `s` at which `pat`
is a prefix of the remaining suffix. -/
def findAux : List Char → List Char → Nat → Option Nat
  | s, pat, i =>
    if pat.isPrefixOf s then some i
    else
      match s with
      | [] => none
      | _ :: t => findAux t pat (i + 1)

/-- Python `pat in s` substring containment. -/
def pyContainsSub (s pat : String) : Bool :=
  (findAux s.data pat.data 0).isSome

/-- Python `s.find(pat, start)`: smallest index at or after `start` where
`pat` occurs, and `-1` when there is none. -/
def pyFind (s pat : String) (start : Nat) : Int :=
  if start > s.data.length then -1
  else
    match findAux (s.data.drop start) pat.data 0 with
    | some j => Int.ofNat (start + j)
    | none => -1

/-- Python slicing `s[a:b]` for `0 ≤ a ≤ b`. -/
def pySlice (s : String) (a b : Nat) : String :=
  ⟨(s.data.drop a).take (b - a)⟩

/-- Python `s.lower()` (character-wise, adequate for ASCII payloads). -/
def strLower (s : String) : String :=
  ⟨s.data.map Char.toLower⟩

/-- Python `s.strip()`: drop leading and trailing whitespace. -/
def pyStrip (s : String) : String :=
  ⟨((s.data.dropWhile Char.isWhitespace).reverse.dropWhile Char.isWhitespace).reverse⟩

/-- Python `s.startswith(pre)`. -/
def pyStartsWith (s pre : String) : Bool :=
  pre.data.isPrefixOf s.data

/-- Python `s.split(sep)` for a one-character separator. -/
def splitOnChar (c : Char) : List Char → List (List Char)
  | [] => [[]]
  | x :: t =>
    if x == c then [] :: splitOnChar c t
    else
      match splitOnChar c t with
      | [] => [x] :: []
      | h :: r => (x :: h) :: r

/-- Python `s.split(sep)` for a one-character separator, at string level. -/
def pySplit (s : String) (c : Char) : List String :=
  (splitOnChar c s.data).map (fun l => ⟨l⟩)

/-! ### CPython `datetime.strptime(s, "%Y-%m-%d")` -/

/-- A calendar date as produced by `datetime.strptime`. -/
structure PyDate where
  year : Nat
  month : Nat
  day : Nat
deriving DecidableEq

def isLeapYear (y : Nat) : Bool :=
  y % 4 == 0 && (y % 100 != 0 || y % 400 == 0)

def daysInMonth (y m : Nat) : Nat :=
  if m == 2 then (if isLeapYear y then 29 else 28)
  else if m == 4 || m == 6 || m == 9 || m == 11 then 30
  else 31

def digitsToNat (l : List Char) : Nat :=
  l.foldl (fun a c => a * 10 + (c.toNat - 48)) 0

/-- `datetime.strptime(s, "%Y-%m-%d")`, returning `none` exactly when the
CPython call raises `ValueError`: the year is four digits, month and day
one or two digits, the whole string is consumed, and the date must be a
real calendar date with year at least 1. -/
def strptimeYMD (s : String) : Option PyDate :=
  match pySplit s (Char.ofNat 45) with
  | [ys, ms, ds] =>
    if ys.data.all Char.isDigit && ms.data.all Char.isDigit && ds.data.all Char.isDigit
        && ys.length == 4
        && decide (1 ≤ ms.length) && ms.length ≤ 2
        && decide (1 ≤ ds.length) && ds.length ≤ 2 then
      let y := digitsToNat ys.data
      let mo := digitsToNat ms.data
      let d := digitsToNat ds.data
      if 1 ≤ y && 1 ≤ mo && mo ≤ 12 && 1 ≤ d && d ≤ daysInMonth y mo then
        some ⟨y, mo, d⟩
      else none
    else none
  | _ => none

/-- Comparison of parsed dates, as `datetime` comparison does. -/
def dateLe (a b : PyDate) : Bool :=
  a.year < b.year ||
    (a.year == b.year &&
      (a.month < b.month || (a.month == b.month && a.day ≤ b.day)))

/-! ### Sprint parsing, `main_v6_keyword_match.py` (`_extract_sprint_info`) -/

/-- The `if "name=" in sprint:` block of v6 `_extract_sprint_info`
(lines 200-205): slice out the text between `name=` and the following
comma (or closing bracket).  `none` means the block was not entered and
control falls through to line 209. -/
def v6SprintFromStr (sprint : String) : Option String :=
  if pyContainsSub sprint "name=" then
    let start := (pyFind sprint "name=" 0).toNat + 5
    let e1 := pyFind sprint "," start
    let e2 := if e1 == -1 then pyFind sprint "]" start else e1
    some (if e2 > (start : Int) then pySlice sprint start e2.toNat else "")
  else none

/-- `_extract_sprint_info` of `main_v6_keyword_match.py` (lines 190-209).
Falsy input returns the empty string; a non-empty list is inspected at its
last element (string with a `name=` token, or dict); every remaining case
reaches `return str(sprint_data)` on line 209. -/
def v6ExtractSprintInfo (sprintData : JVal) : JVal :=
  if pyTruthy sprintData = false then jstr ""
  else
    match sprintData with
    | jarr xs =>
      match xs.getLast? with
      | some (jstr sp) =>
        match v6SprintFromStr sp with
        | some r => jstr r
        | none => jstr (pyStr sprintData)
      | some (jobj d) => dictGetD d "name" (jstr "")
      | _ => jstr (pyStr sprintData)
    | _ => jstr (pyStr sprintData)

/-! ### Sprint parsing, `main_v3.py` (`_parse_single_sprint`,
`_extract_sprint_info`) -/

/-- The `if "name=" in sprint_data:` block of v3 `_parse_single_sprint`
(lines 365-390), including the `state=` suffix handling.  `none` means the
block did not return and control falls through to the
`startswith("com.atlassian")` check. -/
def v3SprintFromStr (s : String) : Option String :=
  if pyContainsSub s "name=" then
    let nameStart := (pyFind s "name=" 0).toNat + 5
    let e1 := pyFind s "," nameStart
    let nameEnd := if e1 == -1 then pyFind s "]" nameStart else e1
    if nameEnd > (nameStart : Int) then
      let name := pySlice s nameStart nameEnd.toNat
      if pyContainsSub s "state=" then
        let stateStart := (pyFind s "state=" 0).toNat + 6
        let e2 := pyFind s "," stateStart
        let stateEnd := if e2 == -1 then pyFind s "]" stateStart else e2
        if stateEnd > (stateStart : Int) then
          let st := pySlice s stateStart stateEnd.toNat
          if st != "CLOSED" then some (name ++ " (" ++ st ++ ")") else some name
        else some name
      else some name
    else none
  else none

/-- `_parse_single_sprint` of `main_v3.py` (lines 333-396). -/
def v3ParseSingleSprint (v : JVal) : String :=
  match v with
  | jobj d =>
    let name := dictGetD d "name" (jstr "")
    let state := dictGetD d "state" (jstr "")
    let sprintId := dictGetD d "id" (jstr "")
    if pyTruthy name then
      if pyTruthy state && !(jvalIsStr state "CLOSED") then
        pyStr name ++ " (" ++ pyStr state ++ ")"
      else pyStr name
    else if pyTruthy sprintId then "Sprint " ++ pyStr sprintId
    else ""
  | jstr s =>
    match v3SprintFromStr s with
    | some r => r
    | none => if !(pyStartsWith s "com.atlassian") then pyStrip s else ""
  | _ => ""

/-- `_extract_sprint_info` of `main_v3.py` (lines 268-331): parse every
element of the sprint field `customfield_10104`, keep the non-empty
results and join them with `", "`. -/
def v3ExtractSprintInfo (fields : List (String × JVal)) : String :=
  let sprintInfo : List String :=
    match List.lookup "customfield_10104" fields with
    | none => []
    | some jnull => []
    | some (jarr xs) =>
        xs.filterMap (fun sp =>
          let n := v3ParseSingleSprint sp
          if n == "" then none else some n)
    | some (jobj d) =>
        (let n := v3ParseSingleSprint (jobj d)
         if n == "" then [] else [n])
    | some (jstr s) =>
        (let n := v3ParseSingleSprint (jstr s)
         if n == "" then [] else [n])
    | some _ => []
  String.intercalate ", " sprintInfo

/-! ### Issue record construction, `main_v6_keyword_match.py`
(`get_issues_for_version`, lines 146-177) -/

/-- `", ".join(v)`: joins a list of strings (`TypeError` on a non-string
element) or the characters of a string; other receivers are not iterable. -/
def pyJoin (v : JVal) : Except PyErr String :=
  match v with
  | jarr xs =>
    match xs.mapM (fun x => match x with | jstr s => some s | _ => none) with
    | some ss => Except.ok (String.intercalate ", " ss)
    | none => Except.error PyErr.typeError
  | jstr s => Except.ok (String.intercalate ", " (s.data.map String.singleton))
  | _ => Except.error PyErr.typeError

/-- The list comprehension `[fv["name"] for fv in fieldsData.get("fixVersions", [])]`
of v6 line 153 (`KeyError` on a version without a name). -/
def v6FixVersionNames (v : JVal) : Except PyErr (List JVal) :=
  match v with
  | jarr xs => xs.mapM (fun fv => pySubscript fv "name")
  | _ => Except.error PyErr.typeError

/-- One entry of the `issue_info` dict literal of v6 built by the
unguarded chain `fieldsData.get(key, dict()).get(sub, "")` (lines
158-160): raises `AttributeError` when the field is present but `None`. -/
def v6UnguardedProj (fieldsData : JVal) (key sub : String) : Except PyErr JVal := do
  let v ← pyGetMethod fieldsData key (jobj [])
  pyGetMethod v sub (jstr "")

/-- One entry of the `issue_info` dict literal of v6 built by the guarded
chain `... if fieldsData.get(key) else ""` (lines 161-163). -/
def v6GuardedProj (fieldsData : JVal) (key sub : String) : Except PyErr JVal := do
  let g ← pyGetMethod fieldsData key jnull
  if pyTruthy g then v6UnguardedProj fieldsData key sub
  else pure (jstr "")

/-- The `issue_info` record built for one raw issue inside
`get_issues_for_version` of `main_v6_keyword_match.py` (lines 146-177).
`issue_type`, `priority` and `status` use the unguarded projection;
`resolution`, `assignee` and `reporter` the guarded one. -/
def v6BuildIssueInfo (issue : JVal) (versionName projectKey : String) :
    Except PyErr (List (String × JVal)) := do
  let fieldsData ← pyGetMethod issue "fields" (jobj [])
  let sprintRaw ← pyGetMethod fieldsData "customfield_10104" jnull
  let sprintInfo := v6ExtractSprintInfo sprintRaw
  let fvRaw ← pyGetMethod fieldsData "fixVersions" (jarr [])
  let fixVersions ← v6FixVersionNames fvRaw
  let issueKey ← pySubscript issue "key"
  let summary ← pyGetMethod fieldsData "summary" (jstr "")
  let issueType ← v6UnguardedProj fieldsData "issuetype" "name"
  let priority ← v6UnguardedProj fieldsData "priority" "name"
  let status ← v6UnguardedProj fieldsData "status" "name"
  let resolution ← v6GuardedProj fieldsData "resolution" "name"
  let assignee ← v6GuardedProj fieldsData "assignee" "displayName"
  let reporter ← v6GuardedProj fieldsData "reporter" "displayName"
  let fixVersionsStr ← pyJoin (jarr fixVersions)
  let labelsRaw ← pyGetMethod fieldsData "labels" (jarr [])
  let labelsStr ← pyJoin labelsRaw
  let description ← pyGetMethod fieldsData "description" (jstr "")
  let sdlc ← pyGetMethod fieldsData "customfield_15600" (jstr "")
  let appName ← pyGetMethod fieldsData "customfield_11700" (jstr "")
  let storyPoints ← pyGetMethod fieldsData "customfield_10106" (jstr "")
  let acceptance ← pyGetMethod fieldsData "customfield_10601" (jstr "")
  let featureLink ← pyGetMethod fieldsData "customfield_10100" (jstr "")
  let notes ← pyGetMethod fieldsData "customfield_10602" (jstr "")
  pure [("issue_key", issueKey),
        ("summary", summary),
        ("issue_type", issueType),
        ("priority", priority),
        ("status", status),
        ("resolution", resolution),
        ("assignee", assignee),
        ("reporter", reporter),
        ("fix_versions", jstr fixVersionsStr),
        ("labels", jstr labelsStr),
        ("description", description),
        ("sdlc_information", sdlc),
        ("application_name", appName),
        ("story_points", storyPoints),
        ("sprint", sprintInfo),
        ("acceptance_criteria", acceptance),
        ("feature_link", featureLink),
        ("notes", notes),
        ("version_name", jstr versionName),
        ("project_key", jstr projectKey)]

/-! ### Issue record construction, `main.py` (`extract_issue_data`,
lines 130-177) -/

/-- The guarded projection pattern of `main.py` lines 147-152:
`fields.get(key, dict()).get(sub, "") if fields.get(key) else ""`. -/
def mainGuardedProj (fields : JVal) (key sub : String) : Except PyErr JVal := do
  let g ← pyGetMethod fields key jnull
  if pyTruthy g then do
    let v ← pyGetMethod fields key (jobj [])
    pyGetMethod v sub (jstr "")
  else pure (jstr "")

/-- `str(item.get("name", item)) if isinstance(item, dict) else str(item)`
from the list branch of the custom-field loop of `main.py` (line 174). -/
def mainItemStr (item : JVal) : String :=
  match item with
  | jobj d => pyStr ((List.lookup "name" d).getD (jobj d))
  | x => pyStr x

/-- The custom-field normalization loop body of `main.py` (lines 169-175)
applied to one raw field value: a dict prefers `value`, falling back to
`name`; a list joins the per-item strings; the result is then stringified,
with falsy values collapsing to the empty string. -/
def mainNormalizeBody (fv : JVal) : JVal :=
  let fv2 : JVal :=
    match fv with
    | jobj d =>
        let a := (List.lookup "value" d).getD (jstr "")
        if pyTruthy a then a else (List.lookup "name" d).getD (jstr "")
    | jarr xs => jstr (String.intercalate ", " (xs.map mainItemStr))
    | x => x
  if pyTruthy fv2 then jstr (pyStr fv2) else jstr ""

/-- One iteration of the custom-field loop of `main.py` (lines 169-175),
including the `fields.get(field_id, "")` fetch. -/
def mainCustomField (fields : JVal) (fieldId : String) : Except PyErr JVal := do
  let fv ← pyGetMethod fields fieldId (jstr "")
  pure (mainNormalizeBody fv)

/-- The nested description projection of `main.py` line 146. -/
def mainDescriptionProj (fields : JVal) : Except PyErr JVal := do
  let g ← pyGetMethod fields "description" jnull
  if pyTruthy g then do
    let d1 ← pyGetMethod fields "description" (jobj [])
    let c1 ← pyGetMethod d1 "content" (jarr [jobj []])
    let e1 ← pyIndex0 c1
    let c2 ← pyGetMethod e1 "content" (jarr [jobj []])
    let e2 ← pyIndex0 c2
    pyGetMethod e2 "text" (jstr "")
  else pure (jstr "")

/-- `[v.get("name", "") for v in fields.get("fixVersions", [])]` from
`main.py` line 154. -/
def mainFixVersionNames (v : JVal) : Except PyErr (List JVal) :=
  match v with
  | jarr xs => xs.mapM (fun fv => pyGetMethod fv "name" (jstr ""))
  | _ => Except.error PyErr.typeError

/-- `extract_issue_data` of `main.py` (lines 130-177). -/
def mainExtractIssueData (issue : JVal) : Except PyErr (List (String × JVal)) := do
  let fields ← pyGetMethod issue "fields" (jobj [])
  let issueKey ← pyGetMethod issue "key" (jstr "")
  let summary ← pyGetMethod fields "summary" (jstr "")
  let description ← mainDescriptionProj fields
  let priority ← mainGuardedProj fields "priority" "name"
  let issueType ← mainGuardedProj fields "issuetype" "name"
  let assignee ← mainGuardedProj fields "assignee" "displayName"
  let reporter ← mainGuardedProj fields "reporter" "displayName"
  let status ← mainGuardedProj fields "status" "name"
  let resolution ← mainGuardedProj fields "resolution" "name"
  let labelsRaw ← pyGetMethod fields "labels" (jarr [])
  let labelsStr ← pyJoin labelsRaw
  let fvRaw ← pyGetMethod fields "fixVersions" (jarr [])
  let fvNames ← mainFixVersionNames fvRaw
  let fvStr ← pyJoin (jarr fvNames)
  let storyPoints ← mainCustomField fields "customfield_10016"
  let sprint ← mainCustomField fields "customfield_10020"
  let acceptance ← mainCustomField fields "customfield_10030"
  let featureLink ← mainCustomField fields "customfield_10040"
  let notes ← mainCustomField fields "customfield_10050"
  let sdlc ← mainCustomField fields "customfield_10060"
  let appName ← mainCustomField fields "customfield_10070"
  pure [("issue_key", issueKey),
        ("summary", summary),
        ("description", description),
        ("priority", priority),
        ("issue_type", issueType),
        ("assignee", assignee),
        ("reporter", reporter),
        ("status", status),
        ("resolution", resolution),
        ("labels", jstr labelsStr),
        ("fix_versions", jstr fvStr),
        ("story_points", storyPoints),
        ("sprint", sprint),
        ("acceptance_criteria", acceptance),
        ("feature_link", featureLink),
        ("notes", notes),
        ("sdlc_information", sdlc),
        ("application_name", appName)]

/-! ### Custom field resolution, `main_v3.py` (`_get_custom_field_value`,
lines 255-266) -/

/-- `_get_custom_field_value` of `main_v3.py`: try the candidate field ids
in order; the first present non-`None` value is normalized (dict: key
`value` with default `str(value)`; list: join of `str(item)`; otherwise
`str(value)`). -/
def v3GetCustomFieldValue (fields : List (String × JVal)) (ids : List String) : JVal :=
  match ids with
  | [] => jstr ""
  | id :: rest =>
    match List.lookup id fields with
    | none => v3GetCustomFieldValue fields rest
    | some jnull => v3GetCustomFieldValue fields rest
    | some (jobj d) => (List.lookup "value" d).getD (jstr (pyStr (jobj d)))
    | some (jarr xs) => jstr (String.intercalate ", " (xs.map pyStr))
    | some x => jstr (pyStr x)

/-! ### Release-window filtering, `main_v3.py` (`fetch_releases`,
`_is_date_in_range`, lines 52-83) -/

/-- `_is_date_in_range` of `main_v3.py` (lines 75-83): parse all three
dates; any `ValueError` yields `False`. -/
def isDateInRange (dateStr startS endS : String) : Bool :=
  match strptimeYMD dateStr with
  | none => false
  | some d =>
    match strptimeYMD startS with
    | none => false
    | some a =>
      match strptimeYMD endS with
      | none => false
      | some b => dateLe a d && dateLe d b

/-- Lift an `Option` into `Except`, raising the given error on `none`;
models a `ValueError` escaping `datetime.strptime`. -/
def ofOpt (o : Option α) (e : PyErr) : Except PyErr α :=
  match o with
  | some x => Except.ok x
  | none => Except.error e

/-- The version filter condition of `fetch_releases` in `main_v3.py`
(lines 54-56): `version.get("released", False) and
version.get("releaseDate") and _is_date_in_range(version["releaseDate"],
start_date, end_date)`.  A truthy non-string release date reaches
`strptime` and raises `TypeError`, which `_is_date_in_range` does not
catch. -/
def v3IncludeVersion (v : JVal) (s e : String) : Except PyErr Bool := do
  let rel ← pyGetMethod v "released" (jbool false)
  if pyTruthy rel then do
    let rd ← pyGetMethod v "releaseDate" jnull
    if pyTruthy rd then do
      let rds ← pySubscript v "releaseDate"
      match rds with
      | jstr ds => pure (isDateInRange ds s e)
      | _ => Except.error PyErr.typeError
    else pure false
  else pure false

/-- The `release_info` dict of `fetch_releases` in `main_v3.py`
(lines 58-66). -/
def v3ReleaseInfo (projectKey : String) (v : JVal) : Except PyErr (List (String × JVal)) := do
  let nm ← pyGetMethod v "name" (jstr "")
  let rel ← pyGetMethod v "released" jnull
  let sd ← pyGetMethod v "startDate" (jstr "")
  let rd ← pyGetMethod v "releaseDate" (jstr "")
  let de ← pyGetMethod v "description" (jstr "")
  let vid ← pyGetMethod v "id" (jstr "")
  pure [("Project_Key", jstr projectKey),
        ("Version", nm),
        ("Status", jstr (if pyTruthy rel then "Released" else "Unreleased")),
        ("Start_Date", sd),
        ("Release_Date", rd),
        ("Description", de),
        ("Version_ID", vid)]

/-- The per-project version loop of `fetch_releases` in `main_v3.py`
(lines 52-67): keep every version satisfying the filter condition. -/
def v3FilterVersions (projectKey : String) (vs : List JVal) (s e : String) :
    Except PyErr (List (List (String × JVal))) :=
  match vs with
  | [] => pure []
  | v :: rest => do
      let inc ← v3IncludeVersion v s e
      if inc then do
        let info ← v3ReleaseInfo projectKey v
        let r ← v3FilterVersions projectKey rest s e
        pure (info :: r)
      else v3FilterVersions projectKey rest s e

/-! ### Release-window filtering, `main_v6_keyword_match.py`
(`get_project_versions`, lines 55-100) -/

/-- The `version_info` dict of `get_project_versions` in v6
(lines 86-94); `version["id"]` and `version["name"]` raise `KeyError`
when absent. -/
def v6VersionInfo (projectKey : String) (v : JVal) : Except PyErr (List (String × JVal)) := do
  let vid ← pySubscript v "id"
  let nm ← pySubscript v "name"
  let rel ← pySubscript v "released"
  let sd ← pyGetMethod v "startDate" (jstr "")
  let rd ← pyGetMethod v "releaseDate" (jstr "")
  let de ← pyGetMethod v "description" (jstr "")
  pure [("project_key", jstr projectKey),
        ("version_id", vid),
        ("version_name", nm),
        ("status", jstr (if pyTruthy rel then "Released" else "Unreleased")),
        ("start_date", sd),
        ("release_date", rd),
        ("description", de)]

/-- One iteration of the version loop of `get_project_versions` in v6
(lines 76-95).  `strptime` failures surface as exceptions instead of a
`False` filter result. -/
def v6Step (projectKey s e : String) (v : JVal) :
    Except PyErr (Option (List (String × JVal))) := do
  let rel ← pyGetMethod v "released" (jbool false)
  if pyTruthy rel then do
    let rd ← pyGetMethod v "releaseDate" jnull
    if pyTruthy rd then do
      let rds ← pySubscript v "releaseDate"
      let ds ← (match rds with
        | jstr x => Except.ok x
        | _ => Except.error PyErr.typeError)
      let d ← ofOpt (strptimeYMD ds) PyErr.valueError
      let a ← ofOpt (strptimeYMD s) PyErr.valueError
      let b ← ofOpt (strptimeYMD e) PyErr.valueError
      if dateLe a d && dateLe d b then do
        let info ← v6VersionInfo projectKey v
        pure (some info)
      else pure none
    else pure none
  else pure none

/-- The per-project body of `get_project_versions` in v6 (lines 72-98):
the `try` block wraps the whole loop, so the first exception stops the
iteration, keeping only the versions already appended; the exception is
logged, not re-raised. -/
def v6ProcessProject (projectKey s e : String) (vs : List JVal) :
    List (List (String × JVal)) :=
  match vs with
  | [] => []
  | v :: rest =>
    match v6Step projectKey s e v with
    | Except.error _ => []
    | Except.ok none => v6ProcessProject projectKey s e rest
    | Except.ok (some info) => info :: v6ProcessProject projectKey s e rest

/-! ### Keyword matching, `main_v6_keyword_match.py`
(`search_keywords_in_data`, lines 333-417) -/

/-- The fixed search column list of v6 line 353. -/
def searchColumnsV6 : List String :=
  ["version_description", "acceptance_criteria", "notes", "description"]

/-- One record of the assembled table together with the keyword and the
column that matched (the entries of `matched_records`, lines 377-381). -/
structure MatchEntry where
  matchedKeyword : String
  matchedColumn : String
  rowData : List (String × JVal)

/-- `str(row[column]).lower() if pd.notna(row[column]) else ""` (line
371); a missing column is treated like a missing value, which cannot
happen for the columns the caller selects from the schema. -/
def cellValueLower (row : List (String × JVal)) (c : String) : String :=
  match List.lookup c row with
  | some jnull => ""
  | some v => strLower (pyStr v)
  | none => ""

/-- The per-row matching loops of `search_keywords_in_data` (lines
366-384): for each available column with non-empty content, for each
keyword, record a match when the lowercased keyword occurs in the
lowercased cell. -/
def rowMatches (kws avail : List String) (row : List (String × JVal)) :
    List MatchEntry :=
  avail.flatMap (fun c =>
    let cv := cellValueLower row c
    if cv ≠ "" then
      (kws.filter (fun k => pyContainsSub cv (strLower k))).map
        (fun k => ⟨k, c, row⟩)
    else [])

/-- Phase one of `search_keywords_in_data` (lines 344-384): the early
returns for an empty frame or no available search column, then the
accumulation of `matched_records` row by row. -/
def searchKeywordsPhase1 (rows : List (List (String × JVal)))
    (keywords : String) (schema : List String) : List MatchEntry :=
  if rows.isEmpty then []
  else
    let kws := (pySplit keywords (Char.ofNat 44)).map pyStrip
    let avail := searchColumnsV6.filter (fun c => schema.contains c)
    if avail.isEmpty then []
    else rows.flatMap (rowMatches kws avail)

/-- Phase two (lines 391-413): each match becomes the original row dict
with `matched_keyword` and `matched_column` columns placed first. -/
def mkMatchRow (m : MatchEntry) : List (String × JVal) :=
  ("matched_keyword", jstr m.matchedKeyword) ::
    ("matched_column", jstr m.matchedColumn) :: m.rowData

/-- `search_keywords_in_data` of `main_v6_keyword_match.py`. -/
def searchKeywordsInData (rows : List (List (String × JVal)))
    (keywords : String) (schema : List String) : List (List (String × JVal)) :=
  (searchKeywordsPhase1 rows keywords schema).map mkMatchRow

/-- The keyword filter as the specification describes it: for each
record, for each configured column present and non-empty, for each
keyword of the comma-split trimmed list, emit one row per
case-insensitive substring hit, carrying the full original record plus
the matched keyword and matched column. -/
def keywordMatchSpec (rows : List (List (String × JVal)))
    (keywords : String) (schema : List String) : List (List (String × JVal)) :=
  rows.flatMap (fun r =>
    (searchColumnsV6.filter (fun c => schema.contains c)).flatMap (fun c =>
      if cellValueLower r c ≠ "" then
        ((pySplit keywords (Char.ofNat 44)).map pyStrip).flatMap (fun k =>
          if pyContainsSub (cellValueLower r c) (strLower k) then
            [mkMatchRow ⟨k, c, r⟩]
          else [])
      else []))

/-- No occurrence of the marker `pat` starts strictly before the
designated one in the layout `pre ++ pat ++ post`. -/
def noMarkBefore (pat pre post : String) : Prop :=
  ∀ j, j < pre.data.length →
    pat.data.isPrefixOf (List.drop j (pre.data ++ (pat.data ++ post.data))) = false

/-! ### Lemmas about the `str.find` model -/

theorem isPrefixOf_append_self (pat b : List Char) :
    pat.isPrefixOf (pat ++ b) = true := by
  induction pat with
  | nil => simp [List.isPrefixOf]
  | cons c t ih => simp [List.isPrefixOf, ih]

theorem findAux_of_occurrence (pat b : List Char) :
    ∀ (a : List Char) (i : Nat),
      (∀ j, j < a.length → pat.isPrefixOf (List.drop j (a ++ (pat ++ b))) = false) →
      findAux (a ++ (pat ++ b)) pat i = some (i + a.length)
  | [], i, _ => by
      unfold findAux
      rw [List.nil_append, isPrefixOf_append_self]
      simp
  | c :: t, i, h => by
      unfold findAux
      have h0 := h 0 (by simp)
      simp only [List.drop_zero] at h0
      rw [List.cons_append] at h0 ⊢
      rw [h0]
      have ih := findAux_of_occurrence pat b t (i + 1) (fun j hj => by
        have hh := h (j + 1) (by simpa using Nat.succ_lt_succ hj)
        simpa using hh)
      simp only [Bool.false_eq_true, if_false, ih, List.length_cons,
        Option.some.injEq]
      omega

theorem findAux_isSome (pat b : List Char) :
    ∀ (a : List Char) (i : Nat), (findAux (a ++ (pat ++ b)) pat i).isSome = true
  | [], i => by
      unfold findAux
      rw [List.nil_append, isPrefixOf_append_self]
      rfl
  | c :: t, i => by
      unfold findAux
      rw [List.cons_append]
      by_cases hp : pat.isPrefixOf (c :: (t ++ (pat ++ b))) = true
      · rw [hp]; rfl
      · rw [Bool.not_eq_true] at hp
        rw [hp]
        simpa using findAux_isSome pat b t (i + 1)

theorem noOccur_of_single (c : Char) (a b : List Char) (h : c ∉ a) :
    ∀ j, j < a.length → [c].isPrefixOf (List.drop j (a ++ ([c] ++ b))) = false := by
  intro j hj
  rw [List.drop_append_eq_append_drop]
  have hje : j - a.length = 0 := by omega
  rw [hje, List.drop_zero]
  rw [List.drop_eq_getElem_cons hj]
  simp only [List.cons_append, List.isPrefixOf, Bool.and_eq_false_iff]
  left
  have hm : a[j] ∈ a := List.getElem_mem hj
  have hne : c ≠ a[j] := fun he => h (he ▸ hm)
  simpa using hne

theorem pyContains_of_layout (s pat : String) (a b : List Char)
    (hdata : s.data = a ++ (pat.data ++ b)) :
    pyContainsSub s pat = true := by
  unfold pyContainsSub
  rw [hdata]
  exact findAux_isSome pat.data b a 0

theorem pyFind_zero_of_layout (s pre pat post : String)
    (hdata : s.data = pre.data ++ (pat.data ++ post.data))
    (h : noMarkBefore pat pre post) :
    pyFind s pat 0 = Int.ofNat pre.data.length := by
  unfold pyFind
  rw [if_neg (by omega), List.drop_zero, hdata,
    findAux_of_occurrence pat.data post.data pre.data 0 h]
  simp

theorem pyFind_from_of_layout (s pat : String) (start : Nat) (a b : List Char)
    (hstart : start ≤ s.data.length)
    (hdrop : s.data.drop start = a ++ (pat.data ++ b))
    (h : ∀ j, j < a.length → pat.data.isPrefixOf (List.drop j (a ++ (pat.data ++ b))) = false) :
    pyFind s pat start = Int.ofNat (start + a.length) := by
  unfold pyFind
  rw [if_neg (by omega), hdrop, findAux_of_occurrence pat.data b a 0 h]
  simp

theorem pySlice_of_layout (s : String) (a mid b : List Char) (x y : Nat)
    (hdata : s.data = a ++ (mid ++ b))
    (hx : x = a.length) (hy : y = x + mid.length) :
    pySlice s x y = ⟨mid⟩ := by
  subst hx hy
  unfold pySlice
  rw [hdata]
  have h1 : (a ++ (mid ++ b)).drop a.length = mid ++ b := by
    simp
  rw [h1]
  have h2 : a.length + mid.length - a.length = mid.length := by omega
  rw [h2, List.take_left]

theorem data_append_eq (x y : String) : (x ++ y).data = x.data ++ y.data := rfl

theorem length_pos_of_ne_empty (n : String) (h : n ≠ "") : 0 < n.data.length := by
  cases n with
  | mk l =>
    cases l with
    | nil => exact absurd rfl h
    | cons c t => simp

/-! ### Small auxiliary lemmas -/

theorem intercalate_singleton (sep x : String) :
    String.intercalate sep [x] = x := rfl

theorem pyContainsSub_empty_pat (s : String) : pyContainsSub s "" = true := by
  unfold pyContainsSub findAux
  have h : List.isPrefixOf ([] : List Char) s.data = true := by
    cases s.data <;> simp [List.isPrefixOf]
  rw [show ("" : String).data = [] from rfl, h]
  rfl

theorem append_ne_empty_left (x y : String) (h : x ≠ "") : x ++ y ≠ "" := by
  intro he
  apply h
  have hl := congrArg String.length he
  rw [String.length_append] at hl
  have hx : x.length = 0 := by
    have : ("" : String).length = 0 := rfl
    omega
  cases x with
  | mk d =>
    cases d with
    | nil => rfl
    | cons c t => simp [String.length] at hx

/-! ### Claim C1 -/

/-- Claim C1 as stated is false on the code: for the sprint raw value
`[dict(id=5)]` (a list whose last element is a mapping lacking `name` but
carrying `id`), v6 `_extract_sprint_info` returns the empty string, not
`"Sprint 5"`. -/
theorem spec_C1_cex :
    v6ExtractSprintInfo (jarr [jobj [("id", jnum 5)]]) = jstr "" ∧
      "" ≠ "Sprint 5" := ⟨rfl, by decide⟩

/-- Claim C1 amended: the `"Sprint {id}"` fallback lives in
`_parse_single_sprint` of `main_v3.py`: for every mapping without a `name`
key whose `id` key holds a non-zero number `n`, it returns `"Sprint n"`,
and v3 `_extract_sprint_info` on the singleton list holding that mapping
returns the same; v6 `_extract_sprint_info` has no such fallback and
returns the empty string there. -/
theorem spec_C1_theorem (d : List (String × JVal)) (n : Int)
    (hname : List.lookup "name" d = none)
    (hid : List.lookup "id" d = some (jnum n))
    (hnz : n ≠ 0) :
    v3ParseSingleSprint (jobj d) = "Sprint " ++ toString n ∧
    v3ExtractSprintInfo [("customfield_10104", jarr [jobj d])] =
      "Sprint " ++ toString n := by
  have h1 : v3ParseSingleSprint (jobj d) = "Sprint " ++ toString n := by
    simp [v3ParseSingleSprint, dictGetD, hname, hid, pyTruthy, hnz, pyStr, pyRepr,
      bne_iff_ne, show ("" : String).data.isEmpty = true from rfl]
  refine ⟨h1, ?_⟩
  have hne : ("Sprint " ++ toString n) ≠ "" :=
    append_ne_empty_left "Sprint " (toString n) (by decide)
  simp only [v3ExtractSprintInfo, List.lookup, beq_self_eq_true, if_true]
  simp only [List.filterMap, h1]
  rw [if_neg (by simpa using hne)]
  exact intercalate_singleton _ _

/-- Witness for C1 at the concrete input of the specification:
`parse_single_sprint(dict(id=5))` is `"Sprint 5"`. -/
theorem spec_C1_witness :
    v3ParseSingleSprint (jobj [("id", jnum 5)]) = "Sprint 5" ∧
    v3ExtractSprintInfo [("customfield_10104", jarr [jobj [("id", jnum 5)]])] =
      "Sprint 5" :=
  spec_C1_theorem [("id", jnum 5)] 5 rfl rfl (by decide)

/-! ### Claim C6 -/

/-- Claim C6 as stated is false on the code: v3 `_extract_sprint_info`
joins the parse of every element, so the list of sprint mappings named
`A` then `B` does not parse to the same value as the singleton holding
only its last element. -/
theorem spec_C6_cex :
    v3ExtractSprintInfo
        [("customfield_10104",
          jarr [jobj [("name", jstr "A")], jobj [("name", jstr "B")]])] ≠
      v3ExtractSprintInfo
        [("customfield_10104", jarr [jobj [("name", jstr "B")]])] := by
  decide

/-- Claim C6 amended: only v6 `_extract_sprint_info` operates on the last
element alone, and only when that last element is a mapping or a string
containing a `name=` token: in those cases the result is independent of
the earlier elements.  (When the last element is anything else, v6
stringifies the whole list, and v3 joins the parses of all elements.) -/
theorem spec_C6_theorem (xs ys : List JVal) (d : List (String × JVal)) (s : String)
    (hs : pyContainsSub s "name=" = true) :
    v6ExtractSprintInfo (jarr (xs ++ [jobj d])) =
      v6ExtractSprintInfo (jarr (ys ++ [jobj d])) ∧
    v6ExtractSprintInfo (jarr (xs ++ [jstr s])) =
      v6ExtractSprintInfo (jarr (ys ++ [jstr s])) := by
  have hne : ∀ (zs : List JVal) (z : JVal), pyTruthy (jarr (zs ++ [z])) = true := by
    intro zs z
    simp [pyTruthy]
  have hobj : ∀ (zs : List JVal),
      v6ExtractSprintInfo (jarr (zs ++ [jobj d])) = dictGetD d "name" (jstr "") := by
    intro zs
    unfold v6ExtractSprintInfo
    rw [hne zs (jobj d)]
    simp [List.getLast?_concat]
  obtain ⟨r, hr⟩ : ∃ r, v6SprintFromStr s = some r := by
    unfold v6SprintFromStr
    rw [hs]
    exact ⟨_, rfl⟩
  have hstr : ∀ (zs : List JVal),
      v6ExtractSprintInfo (jarr (zs ++ [jstr s])) = jstr r := by
    intro zs
    unfold v6ExtractSprintInfo
    rw [hne zs (jstr s)]
    simp only [List.getLast?_concat, hr]
    simp
  constructor
  · rw [hobj xs, hobj ys]
  · rw [hstr xs, hstr ys]

/-- Witness for C6: the last-element rule of v6 at concrete inputs, for a
dict last element and for a legacy-string last element. -/
theorem spec_C6_witness :
    (v6ExtractSprintInfo (jarr [jobj [("name", jstr "A")], jobj [("name", jstr "B")]]) =
      v6ExtractSprintInfo (jarr [jstr "x", jobj [("name", jstr "B")]])) ∧
    (v6ExtractSprintInfo (jarr [jstr "ignored", jstr "gh[id=1,name=S1,state=ACTIVE]"]) =
      v6ExtractSprintInfo (jarr [jobj [], jstr "gh[id=1,name=S1,state=ACTIVE]"])) :=
  ⟨(spec_C6_theorem [jobj [("name", jstr "A")]] [jstr "x"] [("name", jstr "B")]
      "gh[id=1,name=S1,state=ACTIVE]" (by decide)).1,
   (spec_C6_theorem [jstr "ignored"] [jobj []] [("name", jstr "B")]
      "gh[id=1,name=S1,state=ACTIVE]" (by decide)).2⟩

/-! ### Claim C8 -/

/-- Claim C8 as stated is false on the code: for a sequence ending in a
legacy `com.atlassian` string without a `name=` token, v6
`_extract_sprint_info` falls through to `str(sprint_data)` and returns the
stringified list, not the empty string. -/
theorem spec_C8_cex :
    v6ExtractSprintInfo (jarr [jstr "com.atlassian.gh[id=3,state=ACTIVE]"]) ≠
      jstr "" :=
  fun h => absurd (congrArg jstrLen h) (by decide)

/-- Claim C8 amended: the empty-string outcome for a nameless legacy
descriptor holds in `main_v3.py`, and only for strings that start with
`com.atlassian`: `_parse_single_sprint` returns the empty string without
raising, and v3 `_extract_sprint_info` on a singleton sequence holding the
string also returns the empty string.  (v6 instead stringifies the raw
value, and a string merely containing `com.atlassian` elsewhere is
returned stripped by v3.) -/
theorem spec_C8_theorem (s : String)
    (hnc : pyContainsSub s "name=" = false)
    (hsw : pyStartsWith s "com.atlassian" = true) :
    v3ParseSingleSprint (jstr s) = "" ∧
    v3ExtractSprintInfo [("customfield_10104", jarr [jstr s])] = "" := by
  have h1 : v3ParseSingleSprint (jstr s) = "" := by
    simp [v3ParseSingleSprint, v3SprintFromStr, hnc, hsw]
  refine ⟨h1, ?_⟩
  simp [v3ExtractSprintInfo, List.lookup, h1]
  rfl

/-- Witness for C8 at a concrete malformed descriptor. -/
theorem spec_C8_witness :
    v3ParseSingleSprint (jstr "com.atlassian.gh[id=3,state=ACTIVE]") = "" ∧
    v3ExtractSprintInfo
        [("customfield_10104", jarr [jstr "com.atlassian.gh[id=3,state=ACTIVE]"])] = "" :=
  spec_C8_theorem "com.atlassian.gh[id=3,state=ACTIVE]" (by decide) (by decide)

/-! ### Claim C5 -/

/-- Claim C5 as stated is false on the code: in v6
`get_issues_for_version`, the `priority` column is built by the unguarded
chain `fields_data.get("priority", dict()).get("name", "")`, so a payload
whose `priority` field is present but `None` raises `AttributeError`
instead of yielding an empty string. -/
theorem spec_C5_cex :
    v6BuildIssueInfo (jobj [("key", jstr "K-1"), ("fields", jobj [("priority", jnull)])])
        "V1" "P1" = Except.error PyErr.attributeError := rfl

/-- Claim C5 amended: the null-safe behaviour holds for all six nested
fields in `extract_issue_data` of `main.py` (each guarded projection maps
a present-but-null field to the empty string without an attribute-access
error, and the whole build succeeds on an issue whose six nested fields
are all null), while in v6 only `resolution`, `assignee` and `reporter`
are guarded; `priority`, `issuetype` and `status` raise `AttributeError`
when present but null. -/
theorem spec_C5_theorem :
    (∀ (fields : List (String × JVal)) (key sub : String),
       List.lookup key fields = some jnull →
       mainGuardedProj (jobj fields) key sub = Except.ok (jstr "")) ∧
    (∀ (fields : List (String × JVal)) (key sub : String),
       List.lookup key fields = some jnull →
       v6GuardedProj (jobj fields) key sub = Except.ok (jstr "")) ∧
    mainExtractIssueData
        (jobj [("key", jstr "K-1"),
               ("fields", jobj [("priority", jnull), ("issuetype", jnull),
                                ("assignee", jnull), ("reporter", jnull),
                                ("status", jnull), ("resolution", jnull)])]) =
      Except.ok
        [("issue_key", jstr "K-1"), ("summary", jstr ""), ("description", jstr ""),
         ("priority", jstr ""), ("issue_type", jstr ""), ("assignee", jstr ""),
         ("reporter", jstr ""), ("status", jstr ""), ("resolution", jstr ""),
         ("labels", jstr ""), ("fix_versions", jstr ""), ("story_points", jstr ""),
         ("sprint", jstr ""), ("acceptance_criteria", jstr ""),
         ("feature_link", jstr ""), ("notes", jstr ""),
         ("sdlc_information", jstr ""), ("application_name", jstr "")] := by
  refine ⟨?_, ?_, rfl⟩
  · intro fields key sub h
    simp only [mainGuardedProj, pyGetMethod, dictGetD, h, Option.getD_some]
    rfl
  · intro fields key sub h
    simp only [v6GuardedProj, pyGetMethod, dictGetD, h, Option.getD_some]
    rfl

/-! ### Claim C9 -/

/-- Claim C9 as stated is false on the code: `_get_custom_field_value` of
`main_v3.py` never consults the `name` key of a mapping; for the mapping
with only `name = "B"` it returns the full string representation (length
13), not `"B"` (length 1). -/
theorem spec_C9_cex :
    v3GetCustomFieldValue [("cf1", jobj [("name", jstr "B")])] ["cf1"] ≠ jstr "B" :=
  fun h => absurd (congrArg jstrLen h) (by decide)

/-- Claim C9 amended: the `value` key does take precedence, in both
normalizers: whenever a mapping carries `value` bound to a string `s`,
v3 `_get_custom_field_value` returns exactly `s`, and the `main.py`
custom-field loop body also returns `s` provided `s` is non-empty (the
fallbacks differ: `main.py` tries `name` and then the empty string, v3
falls back directly to the `str()` of the mapping). -/
theorem spec_C9_theorem (d : List (String × JVal)) (s : String)
    (hv : List.lookup "value" d = some (jstr s)) :
    v3GetCustomFieldValue [("cfX", jobj d)] ["cfX"] = jstr s ∧
    (s ≠ "" → mainNormalizeBody (jobj d) = jstr s) := by
  constructor
  · simp [v3GetCustomFieldValue, List.lookup, hv]
  · intro hs
    have hne : s.data.isEmpty = false := by
      cases s with
      | mk l =>
        cases l with
        | nil => exact absurd rfl hs
        | cons c t => rfl
    simp [mainNormalizeBody, hv, pyTruthy, hne, pyStr]

/-- Witness for C9 at the concrete mapping of the specification:
`normalize(dict(value="A", name="B"))` is `"A"` in both normalizers. -/
theorem spec_C9_witness :
    v3GetCustomFieldValue [("cfX", jobj [("value", jstr "A"), ("name", jstr "B")])]
        ["cfX"] = jstr "A" ∧
    mainNormalizeBody (jobj [("value", jstr "A"), ("name", jstr "B")]) = jstr "A" :=
  ⟨(spec_C9_theorem [("value", jstr "A"), ("name", jstr "B")] "A" rfl).1,
   (spec_C9_theorem [("value", jstr "A"), ("name", jstr "B")] "A" rfl).2 (by decide)⟩

/-- Witness for C5: the guarded projections at concrete present-but-null
fields. -/
theorem spec_C5_witness :
    mainGuardedProj (jobj [("priority", jnull)]) "priority" "name" =
      Except.ok (jstr "") ∧
    v6GuardedProj (jobj [("resolution", jnull)]) "resolution" "name" =
      Except.ok (jstr "") :=
  ⟨spec_C5_theorem.1 [("priority", jnull)] "priority" "name" rfl,
   spec_C5_theorem.2.1 [("resolution", jnull)] "resolution" "name" rfl⟩

/-! ### Claim C3 -/

/-- Claim C3, confirmed on the v3 filter: under a well-formed query range
and a well-shaped version object (boolean `released`, release date absent,
null or string), the filter condition of `fetch_releases` holds exactly
when the version is released, its release date is present, parses as a
calendar date, and that date lies in the closed interval between the
parsed start and end dates; in particular a released version without a
release date is excluded for every range. -/
theorem spec_C3_theorem (d : List (String × JVal)) (s e : String) (a b : PyDate)
    (hs : strptimeYMD s = some a) (he : strptimeYMD e = some b)
    (hrel : List.lookup "released" d = none ∨
            ∃ bo, List.lookup "released" d = some (jbool bo))
    (hrd : List.lookup "releaseDate" d = none ∨
           List.lookup "releaseDate" d = some jnull ∨
           ∃ ds, List.lookup "releaseDate" d = some (jstr ds)) :
    v3IncludeVersion (jobj d) s e = Except.ok true ↔
      (List.lookup "released" d = some (jbool true) ∧
       ∃ ds dd, List.lookup "releaseDate" d = some (jstr ds) ∧
         strptimeYMD ds = some dd ∧ dateLe a dd = true ∧ dateLe dd b = true) := by
  rcases hrel with h | ⟨bo, h⟩
  · have hv : v3IncludeVersion (jobj d) s e = Except.ok false := by
      simp only [v3IncludeVersion, pyGetMethod, dictGetD, h]
      rfl
    rw [hv]
    simp [h]
  · cases bo with
    | false =>
      have hv : v3IncludeVersion (jobj d) s e = Except.ok false := by
        simp only [v3IncludeVersion, pyGetMethod, dictGetD, h]
        rfl
      rw [hv]
      simp [h]
    | true =>
      rcases hrd with hr | hr | ⟨ds, hr⟩
      · have hv : v3IncludeVersion (jobj d) s e = Except.ok false := by
          simp only [v3IncludeVersion, pyGetMethod, dictGetD, h, hr]
          rfl
        rw [hv]
        constructor
        · intro hc
          simp at hc
        · rintro ⟨-, ds2, dd, hds2, -⟩
          rw [hr] at hds2
          exact Option.noConfusion hds2
      · have hv : v3IncludeVersion (jobj d) s e = Except.ok false := by
          simp only [v3IncludeVersion, pyGetMethod, dictGetD, h, hr]
          rfl
        rw [hv]
        constructor
        · intro hc
          simp at hc
        · rintro ⟨-, ds2, dd, hds2, -⟩
          rw [hr] at hds2
          simp at hds2
      · cases hds : ds.data with
        | nil =>
          have hds0 : ds = "" := by
            cases ds with
            | mk l => cases hds; rfl
          subst hds0
          have hv : v3IncludeVersion (jobj d) s e = Except.ok false := by
            simp only [v3IncludeVersion, pyGetMethod, dictGetD, h, hr]
            rfl
          rw [hv]
          constructor
          · intro hc
            simp at hc
          · rintro ⟨-, ds2, dd, hds2, hparse, -⟩
            rw [hr] at hds2
            simp only [Option.some.injEq, jstr.injEq] at hds2
            subst hds2
            rw [show strptimeYMD "" = none from by decide] at hparse
            exact Option.noConfusion hparse
        | cons c t =>
          have ht : pyTruthy (jstr ds) = true := by
            simp [pyTruthy, hds]
          have hstep : v3IncludeVersion (jobj d) s e =
              Except.ok (isDateInRange ds s e) := by
            simp only [v3IncludeVersion, pyGetMethod, dictGetD, h, hr, pySubscript]
            show (do
              let rd ← Except.ok jnull
              if pyTruthy (jstr ds) = true then do
                  let rds ← Except.ok (jstr ds)
                  pure (isDateInRange ds s e)
                else pure false : Except PyErr Bool) = _
            rw [ht]
            rfl
          rw [hstep]
          constructor
          · intro hc
            have hc2 : isDateInRange ds s e = true := by
              cases hir : isDateInRange ds s e
              · rw [hir] at hc; simp at hc
              · rfl
            unfold isDateInRange at hc2
            rw [hs, he] at hc2
            cases hp : strptimeYMD ds with
            | none => rw [hp] at hc2; cases hc2
            | some dd =>
              rw [hp] at hc2
              refine ⟨h, ds, dd, hr, hp, ?_, ?_⟩
              · exact (Bool.and_eq_true_iff.mp hc2).1
              · exact (Bool.and_eq_true_iff.mp hc2).2
          · rintro ⟨-, ds2, dd, hds2, hparse, h1, h2⟩
            rw [hr] at hds2
            simp only [Option.some.injEq, jstr.injEq] at hds2
            subst hds2
            have hir : isDateInRange ds s e = true := by
              unfold isDateInRange
              rw [hparse, hs, he]
              show (dateLe a dd && dateLe dd b) = true
              rw [h1, h2]
              rfl
            rw [hir]

/-- Witness for C3 at the concrete versions and ranges of the
specification: a released version dated 2024-06-15 is included in the
year range, excluded from the July-onward range, and a released version
without a release date is excluded. -/
theorem spec_C3_witness :
    v3IncludeVersion (jobj [("released", jbool true), ("releaseDate", jstr "2024-06-15")])
        "2024-01-01" "2024-12-31" = Except.ok true ∧
    ¬ (v3IncludeVersion (jobj [("released", jbool true), ("releaseDate", jstr "2024-06-15")])
        "2024-07-01" "2024-12-31" = Except.ok true) ∧
    ¬ (v3IncludeVersion (jobj [("released", jbool true)])
        "2024-01-01" "2024-12-31" = Except.ok true) := by
  refine ⟨?_, ?_, ?_⟩
  · exact (spec_C3_theorem [("released", jbool true), ("releaseDate", jstr "2024-06-15")]
      "2024-01-01" "2024-12-31" ⟨2024, 1, 1⟩ ⟨2024, 12, 31⟩ (by decide) (by decide)
      (Or.inr ⟨true, rfl⟩) (Or.inr (Or.inr ⟨"2024-06-15", rfl⟩))).mpr
      ⟨rfl, "2024-06-15", ⟨2024, 6, 15⟩, rfl, by decide, by decide, by decide⟩
  · intro hc
    rcases (spec_C3_theorem [("released", jbool true), ("releaseDate", jstr "2024-06-15")]
      "2024-07-01" "2024-12-31" ⟨2024, 7, 1⟩ ⟨2024, 12, 31⟩ (by decide) (by decide)
      (Or.inr ⟨true, rfl⟩) (Or.inr (Or.inr ⟨"2024-06-15", rfl⟩))).mp hc with
      ⟨-, ds, dd, hds, hp, h1, -⟩
    cases hds
    rw [show strptimeYMD "2024-06-15" = some ⟨2024, 6, 15⟩ from by decide] at hp
    cases hp
    exact absurd h1 (by decide)
  · intro hc
    rcases (spec_C3_theorem [("released", jbool true)]
      "2024-01-01" "2024-12-31" ⟨2024, 1, 1⟩ ⟨2024, 12, 31⟩ (by decide) (by decide)
      (Or.inr ⟨true, rfl⟩) (Or.inl rfl)).mp hc with ⟨-, ds, dd, hds, -⟩
    cases hds

/-! ### Claim C7 -/

/-- Claim C7 as stated is false on the code: in v6 `get_project_versions`
the `try` block wraps the whole per-project loop, so one version with an
unparseable release date ends the iteration and also drops every later
version of the project: the well-formed version dated 2024-06-15 is
included when processed alone but lost when it follows the malformed one. -/
theorem spec_C7_cex :
    v6ProcessProject "P" "2024-01-01" "2024-12-31"
        [jobj [("released", jbool true), ("releaseDate", jstr "2024-13-99"),
               ("id", jstr "1"), ("name", jstr "Bad")],
         jobj [("released", jbool true), ("releaseDate", jstr "2024-06-15"),
               ("id", jstr "2"), ("name", jstr "Good")]] = [] ∧
    v6ProcessProject "P" "2024-01-01" "2024-12-31"
        [jobj [("released", jbool true), ("releaseDate", jstr "2024-06-15"),
               ("id", jstr "2"), ("name", jstr "Good")]] =
      [[("project_key", jstr "P"), ("version_id", jstr "2"),
        ("version_name", jstr "Good"), ("status", jstr "Released"),
        ("start_date", jstr ""), ("release_date", jstr "2024-06-15"),
        ("description", jstr "")]] ∧
    ([] : List (List (String × JVal))) ≠
      [[("project_key", jstr "P"), ("version_id", jstr "2"),
        ("version_name", jstr "Good"), ("status", jstr "Released"),
        ("start_date", jstr ""), ("release_date", jstr "2024-06-15"),
        ("description", jstr "")]] :=
  ⟨rfl, rfl, by simp⟩

/-- Claim C7 amended: the claimed behaviour is that of `main_v3.py`:
`_is_date_in_range` turns a date-parsing `ValueError` into `False`, so a
version rejected by the filter condition — in particular one whose release
date does not parse — is simply dropped from `fetch_releases`, and the
records produced for all other versions of the project are unchanged.  In
v6 the failure instead ends the processing of the remaining versions of
the same project. -/
theorem spec_C7_theorem (pk : String) (pre post : List JVal) (v : JVal)
    (s e : String) (hv : v3IncludeVersion v s e = Except.ok false) :
    v3FilterVersions pk (pre ++ v :: post) s e = v3FilterVersions pk (pre ++ post) s e := by
  induction pre with
  | nil =>
    simp only [List.nil_append]
    show (do
      let inc ← v3IncludeVersion v s e
      if inc then do
        let info ← v3ReleaseInfo pk v
        let r ← v3FilterVersions pk post s e
        pure (info :: r)
      else v3FilterVersions pk post s e) = _
    rw [hv]
    rfl
  | cons p t ih =>
    simp only [List.cons_append]
    show (do
      let inc ← v3IncludeVersion p s e
      if inc then do
        let info ← v3ReleaseInfo pk p
        let r ← v3FilterVersions pk (t ++ v :: post) s e
        pure (info :: r)
      else v3FilterVersions pk (t ++ v :: post) s e) = (do
      let inc ← v3IncludeVersion p s e
      if inc then do
        let info ← v3ReleaseInfo pk p
        let r ← v3FilterVersions pk (t ++ post) s e
        pure (info :: r)
      else v3FilterVersions pk (t ++ post) s e)
    rw [ih]

/-- Witness for C7: dropping a version with the impossible date
2024-02-30 from the middle of the version list of a project leaves the result
of the v3 filter unchanged. -/
theorem spec_C7_witness :
    v3IncludeVersion (jobj [("released", jbool true), ("releaseDate", jstr "2024-02-30")])
        "2024-01-01" "2024-12-31" = Except.ok false ∧
    v3FilterVersions "P"
        [jobj [("released", jbool true), ("releaseDate", jstr "2024-06-15")],
         jobj [("released", jbool true), ("releaseDate", jstr "2024-02-30")],
         jobj [("released", jbool true), ("releaseDate", jstr "2024-08-01")]]
        "2024-01-01" "2024-12-31" =
      v3FilterVersions "P"
        [jobj [("released", jbool true), ("releaseDate", jstr "2024-06-15")],
         jobj [("released", jbool true), ("releaseDate", jstr "2024-08-01")]]
        "2024-01-01" "2024-12-31" :=
  ⟨rfl,
   spec_C7_theorem "P"
     [jobj [("released", jbool true), ("releaseDate", jstr "2024-06-15")]]
     [jobj [("released", jbool true), ("releaseDate", jstr "2024-08-01")]]
     (jobj [("released", jbool true), ("releaseDate", jstr "2024-02-30")])
     "2024-01-01" "2024-12-31" rfl⟩

/-! ### Claims C4 and C10 -/

theorem filter_map_eq_flatMap {α β : Type} (l : List α) (p : α → Bool) (g : α → β) :
    (l.filter p).map g = l.flatMap (fun x => if p x then [g x] else []) := by
  induction l with
  | nil => rfl
  | cons x t ih =>
    cases hp : p x <;> simp [List.filter, hp, ih]

theorem search_eq_spec_helper (rows : List (List (String × JVal)))
    (keywords : String) (schema : List String) :
    searchKeywordsInData rows keywords schema = keywordMatchSpec rows keywords schema := by
  unfold searchKeywordsInData searchKeywordsPhase1 keywordMatchSpec
  cases hrows : rows.isEmpty
  · rw [if_neg (by simp [hrows])]
    cases havail : (searchColumnsV6.filter (fun c => schema.contains c)).isEmpty
    · rw [if_neg (by rw [havail]; simp)]
      rw [List.map_flatMap]
      congr 1
      funext r
      unfold rowMatches
      rw [List.map_flatMap]
      congr 1
      funext c
      by_cases hcv : cellValueLower r c ≠ ""
      · rw [if_pos hcv, if_pos hcv]
        rw [List.map_map, filter_map_eq_flatMap]
        rfl
      · rw [if_neg hcv, if_neg hcv]
        rfl
    · rw [if_pos (by simpa using havail)]
      have he : searchColumnsV6.filter (fun c => schema.contains c) = [] := by
        simpa using havail
      rw [he]
      simp
  · have he : rows = [] := by simpa using hrows
    subst he
    simp

/-- Claim C4, confirmed: `search_keywords_in_data` of
`main_v6_keyword_match.py` equals, on every input, the specification
comprehension emitting exactly one row — the full original record with the
matched keyword and matched column prepended — per record, per available
search column with non-empty content, per comma-split trimmed keyword
whose lowercase form occurs in the lowercase cell; and on the
concrete example of the specification the single matching row carries the
keyword `Create Table` while `Foo` contributes nothing. -/
theorem spec_C4_theorem :
    (∀ (rows : List (List (String × JVal))) (keywords : String) (schema : List String),
      searchKeywordsInData rows keywords schema = keywordMatchSpec rows keywords schema) ∧
    searchKeywordsInData [[("description", jstr "Create Table now")]]
        "Create Table, Foo" ["description"] =
      [[("matched_keyword", jstr "Create Table"), ("matched_column", jstr "description"),
        ("description", jstr "Create Table now")]] :=
  ⟨search_eq_spec_helper, rfl⟩

/-- Claim C10, confirmed: when the comma-split keyword list contains an
entry that trims to the empty string, every record and every available
search column with non-empty content yields a match row whose matched
keyword is the empty string, because empty-substring containment always
holds. -/
theorem spec_C10_theorem (rows : List (List (String × JVal))) (keywords : String)
    (schema : List String) (r : List (String × JVal)) (c : String)
    (hr : r ∈ rows) (hc : c ∈ searchColumnsV6) (hcs : schema.contains c = true)
    (hk : "" ∈ (pySplit keywords (Char.ofNat 44)).map pyStrip)
    (hv : cellValueLower r c ≠ "") :
    mkMatchRow ⟨"", c, r⟩ ∈ searchKeywordsInData rows keywords schema := by
  unfold searchKeywordsInData
  apply List.mem_map_of_mem
  unfold searchKeywordsPhase1
  rw [if_neg (by simp only [List.isEmpty_iff]; exact List.ne_nil_of_mem hr)]
  have hcav : c ∈ searchColumnsV6.filter (fun x => schema.contains x) :=
    List.mem_filter.mpr ⟨hc, hcs⟩
  rw [if_neg (by simp only [List.isEmpty_iff]; exact List.ne_nil_of_mem hcav)]
  apply List.mem_flatMap.mpr
  refine ⟨r, hr, ?_⟩
  unfold rowMatches
  apply List.mem_flatMap.mpr
  refine ⟨c, hcav, ?_⟩
  rw [if_pos hv]
  apply List.mem_map_of_mem
  apply List.mem_filter.mpr
  refine ⟨hk, ?_⟩
  rw [show strLower "" = "" from rfl]
  exact pyContainsSub_empty_pat _

/-- Witness for C10: a trailing comma in the keyword input produces an
empty-keyword match row for a record with a non-empty description. -/
theorem spec_C10_witness :
    mkMatchRow ⟨"", "description", [("description", jstr "x")]⟩ ∈
      searchKeywordsInData [[("description", jstr "x")]] "Create Table," ["description"] :=
  spec_C10_theorem [[("description", jstr "x")]] "Create Table," ["description"]
    [("description", jstr "x")] "description"
    (by simp) (by simp [searchColumnsV6]) (by decide) (by decide) (by decide)

theorem v3SprintFromStr_layout (p n t q : String)
    (h1 : noMarkBefore "name=" p (n ++ "," ++ "state=" ++ t ++ "," ++ q))
    (hn : (Char.ofNat 44) ∉ n.data)
    (h3 : noMarkBefore "state=" (p ++ "name=" ++ n ++ ",") (t ++ "," ++ q))
    (ht : (Char.ofNat 44) ∉ t.data)
    (hn0 : n ≠ "") (ht0 : t ≠ "") :
    v3SprintFromStr (p ++ "name=" ++ n ++ "," ++ "state=" ++ t ++ "," ++ q) =
      some (if t = "CLOSED" then n else n ++ " (" ++ t ++ ")") := by
  set s : String := p ++ "name=" ++ n ++ "," ++ "state=" ++ t ++ "," ++ q with hsdef
  have hN : 0 < n.data.length := length_pos_of_ne_empty n hn0
  have hT : 0 < t.data.length := length_pos_of_ne_empty t ht0
  have hflat : s.data = p.data ++ ("name=".data ++ (n.data ++ (",".data ++
      ("state=".data ++ (t.data ++ (",".data ++ q.data)))))) := by
    simp only [hsdef, data_append_eq, List.append_assoc]
  have hP5 : (p.data ++ "name=".data).length = p.data.length + 5 := by
    rw [List.length_append]
    rfl
  have hsplit1 : s.data = (p.data ++ "name=".data) ++ (n.data ++ (",".data ++
      ("state=".data ++ (t.data ++ (",".data ++ q.data))))) := by
    rw [hflat, List.append_assoc]
  have hcont1 : pyContainsSub s "name=" = true :=
    pyContains_of_layout s "name=" p.data _ hflat
  have hfind1 : pyFind s "name=" 0 = Int.ofNat p.data.length := by
    apply pyFind_zero_of_layout s p "name=" (n ++ "," ++ "state=" ++ t ++ "," ++ q)
    · simp only [data_append_eq, List.append_assoc]
      exact hflat
    · exact h1
  have hslen : p.data.length + 5 ≤ s.data.length := by
    rw [hsplit1, List.length_append, hP5]
    omega
  have hdropN : s.data.drop (p.data.length + 5) = n.data ++ (",".data ++
      ("state=".data ++ (t.data ++ (",".data ++ q.data)))) := by
    rw [hsplit1, ← hP5, List.drop_left]
  have hfind2 : pyFind s "," (p.data.length + 5) =
      Int.ofNat (p.data.length + 5 + n.data.length) := by
    apply pyFind_from_of_layout s "," (p.data.length + 5) n.data
      ("state=".data ++ (t.data ++ (",".data ++ q.data))) hslen hdropN
    exact noOccur_of_single (Char.ofNat 44) n.data _ hn
  have hpre2 : (p ++ "name=" ++ n ++ ",").data.length =
      p.data.length + 5 + n.data.length + 1 := by
    simp only [data_append_eq, List.length_append]
    rfl
  have hcont2 : pyContainsSub s "state=" = true := by
    apply pyContains_of_layout s "state="
      (p.data ++ ("name=".data ++ (n.data ++ ",".data)))
      (t.data ++ (",".data ++ q.data))
    rw [hflat]
    simp only [List.append_assoc]
  have hfind3 : pyFind s "state=" 0 =
      Int.ofNat (p.data.length + 5 + n.data.length + 1) := by
    rw [← hpre2]
    apply pyFind_zero_of_layout s (p ++ "name=" ++ n ++ ",") "state=" (t ++ "," ++ q)
    · rw [hflat]
      simp only [data_append_eq, List.append_assoc]
    · exact h3
  have hsplit2 : s.data = (p.data ++ ("name=".data ++ (n.data ++ (",".data ++
      "state=".data)))) ++ (t.data ++ (",".data ++ q.data)) := by
    rw [hflat]
    simp only [List.append_assoc]
  have hpre3 : (p.data ++ ("name=".data ++ (n.data ++ (",".data ++
      "state=".data)))).length = p.data.length + 5 + n.data.length + 1 + 6 := by
    simp only [List.length_append]
    show p.data.length + (5 + (n.data.length + (1 + 6))) = _
    omega
  have hslen2 : p.data.length + 5 + n.data.length + 1 + 6 ≤ s.data.length := by
    rw [hsplit2, List.length_append, hpre3]
    omega
  have hdropT : s.data.drop (p.data.length + 5 + n.data.length + 1 + 6) =
      t.data ++ (",".data ++ q.data) := by
    rw [hsplit2, ← hpre3, List.drop_left]
  have hfind4 : pyFind s "," (p.data.length + 5 + n.data.length + 1 + 6) =
      Int.ofNat (p.data.length + 5 + n.data.length + 1 + 6 + t.data.length) := by
    apply pyFind_from_of_layout s "," (p.data.length + 5 + n.data.length + 1 + 6) t.data
      q.data hslen2 hdropT
    exact noOccur_of_single (Char.ofNat 44) t.data _ ht
  have hslice1 : pySlice s (p.data.length + 5) (p.data.length + 5 + n.data.length) = n :=
    pySlice_of_layout s (p.data ++ "name=".data) n.data
      (",".data ++ ("state=".data ++ (t.data ++ (",".data ++ q.data))))
      (p.data.length + 5) (p.data.length + 5 + n.data.length)
      hsplit1 hP5.symm rfl
  have hslice2 : pySlice s (p.data.length + 5 + n.data.length + 1 + 6)
      (p.data.length + 5 + n.data.length + 1 + 6 + t.data.length) = t :=
    pySlice_of_layout s (p.data ++ ("name=".data ++ (n.data ++ (",".data ++
      "state=".data)))) t.data (",".data ++ q.data)
      (p.data.length + 5 + n.data.length + 1 + 6)
      (p.data.length + 5 + n.data.length + 1 + 6 + t.data.length)
      hsplit2 hpre3.symm rfl
  have hbeq2 : (((p.data.length + 5 + n.data.length : Nat) : Int) == -1) = false := by
    simp only [beq_eq_false_iff_ne, ne_eq]
    omega
  have hbeq4 : (((p.data.length + 5 + n.data.length + 1 + 6 + t.data.length : Nat) : Int)
      == -1) = false := by
    simp only [beq_eq_false_iff_ne, ne_eq]
    omega
  have hgt1 : ((p.data.length + 5 : Nat) : Int) <
      ((p.data.length + 5 + n.data.length : Nat) : Int) := by
    omega
  have hgt2 : ((p.data.length + 5 + n.data.length + 1 + 6 : Nat) : Int) <
      ((p.data.length + 5 + n.data.length + 1 + 6 + t.data.length : Nat) : Int) := by
    omega
  rw [show v3SprintFromStr s = (if pyContainsSub s "name=" then
      let nameStart := (pyFind s "name=" 0).toNat + 5
      let e1 := pyFind s "," nameStart
      let nameEnd := if e1 == -1 then pyFind s "]" nameStart else e1
      if nameEnd > (nameStart : Int) then
        let name := pySlice s nameStart nameEnd.toNat
        if pyContainsSub s "state=" then
          let stateStart := (pyFind s "state=" 0).toNat + 6
          let e2 := pyFind s "," stateStart
          let stateEnd := if e2 == -1 then pyFind s "]" stateStart else e2
          if stateEnd > (stateStart : Int) then
            let st := pySlice s stateStart stateEnd.toNat
            if st != "CLOSED" then some (name ++ " (" ++ st ++ ")") else some name
          else some name
        else some name
      else none
    else none) from rfl]
  rw [hcont1, if_pos rfl]
  simp only [hfind1, Int.ofNat_eq_natCast, Int.toNat_natCast, hfind2, hbeq2,
    Bool.false_eq_true, if_false, hcont2, if_pos rfl, hfind3, hfind4, hbeq4,
    hslice1, hslice2]
  rw [if_pos hgt1, if_pos hgt2]
  by_cases htc : t = "CLOSED"
  · subst htc
    rw [if_pos rfl]
    simp
  · rw [if_neg htc, show (t != "CLOSED") = true from by simpa [bne_iff_ne] using htc]
    simp

/-! ### Claim C2 -/

/-- Claim C2 as stated is false on the code: v6 `_extract_sprint_info`
extracts only the text after `name=` and ignores the `state=` token, so a
legacy descriptor in the `ACTIVE` state parses to `"Sprint 7"` instead of
`"Sprint 7 (ACTIVE)"`. -/
theorem spec_C2_cex :
    v6ExtractSprintInfo
        (jarr [jstr "com.atlassian.greenhopper.service.sprint.Sprint@3f[id=42,name=Sprint 7,state=ACTIVE,startDate=2024-01-01]"]) =
      jstr "Sprint 7" ∧
    "Sprint 7" ≠ "Sprint 7 (ACTIVE)" := ⟨rfl, by decide⟩

/-- Claim C2 amended: the `"<name> (<state>)"` formatting holds in
`_parse_single_sprint` of `main_v3.py`: for every legacy descriptor laid
out as `<prefix>name=<n>,state=<t>,<rest>` — with the `name=` and `state=`
markers first occurring at their displayed positions, `n` and `t`
non-empty and comma-free — the parse result is `n` when the state is
`CLOSED` and `n (t)` otherwise.  (v6 returns `n` alone in both cases, as
the counterexample shows.) -/
theorem spec_C2_theorem (p n t q : String)
    (h1 : noMarkBefore "name=" p (n ++ "," ++ "state=" ++ t ++ "," ++ q))
    (hn : (Char.ofNat 44) ∉ n.data)
    (h3 : noMarkBefore "state=" (p ++ "name=" ++ n ++ ",") (t ++ "," ++ q))
    (ht : (Char.ofNat 44) ∉ t.data)
    (hn0 : n ≠ "") (ht0 : t ≠ "") :
    v3ParseSingleSprint (jstr (p ++ "name=" ++ n ++ "," ++ "state=" ++ t ++ "," ++ q)) =
      (if t = "CLOSED" then n else n ++ " (" ++ t ++ ")") := by
  have h := v3SprintFromStr_layout p n t q h1 hn h3 ht hn0 ht0
  show (match v3SprintFromStr (p ++ "name=" ++ n ++ "," ++ "state=" ++ t ++ "," ++ q) with
    | some r => r
    | none => if !(pyStartsWith (p ++ "name=" ++ n ++ "," ++ "state=" ++ t ++ "," ++ q)
        "com.atlassian") then pyStrip (p ++ "name=" ++ n ++ "," ++ "state=" ++ t ++ "," ++ q)
      else "") = _
  rw [h]

/-- Witness for C2 at the concrete descriptors of the specification: the
`ACTIVE` sprint formats as `"Sprint 7 (ACTIVE)"` and the `CLOSED` one as
`"Sprint 7"`. -/
theorem spec_C2_witness :
    v3ParseSingleSprint
        (jstr "com.atlassian.greenhopper.service.sprint.Sprint@3f[id=42,name=Sprint 7,state=ACTIVE,startDate=2024-01-01]") =
      "Sprint 7 (ACTIVE)" ∧
    v3ParseSingleSprint
        (jstr "com.atlassian.greenhopper.service.sprint.Sprint@3f[id=42,name=Sprint 7,state=CLOSED,startDate=2024-01-01]") =
      "Sprint 7" := by
  constructor
  · have h := spec_C2_theorem "com.atlassian.greenhopper.service.sprint.Sprint@3f[id=42,"
      "Sprint 7" "ACTIVE" "startDate=2024-01-01]"
      (by unfold noMarkBefore; decide) (by decide)
      (by unfold noMarkBefore; decide) (by decide) (by decide) (by decide)
    rw [if_neg (by decide)] at h
    exact h
  · have h := spec_C2_theorem "com.atlassian.greenhopper.service.sprint.Sprint@3f[id=42,"
      "Sprint 7" "CLOSED" "startDate=2024-01-01]"
      (by unfold noMarkBefore; decide) (by decide)
      (by unfold noMarkBefore; decide) (by decide) (by decide) (by decide)
    rw [if_pos (by decide)] at h
    exact h
